import Mathlib

/-!
# RANDOM ORIGAMI (sketch.js): state machine, shape generator, crease pattern

A shallow embedding of `src/sketch.js`.

* JavaScript numbers are modelled by exact rationals (`0.03` is `3/100`,
  `0.7` is `7/10`, the shades are `1/20, 1/10, 3/20, 1/5`).
* The globals of the sketch are the fields of `World`.
* The p5 library values used by the generator (`TWO_PI`, `cos`, `sin`) are
  taken as parameters (`P5`); every call of `random` is resolved by a
  `Draws` record holding the value the random source returns at that call.
* An uncaught `TypeError` (reading `.ox` of `undefined`) is `none`.
* Drawing calls change no global and are left out; the call
  `playPaperSound(isFold)` is recorded in `World.sfxCalls`.
-/

namespace Origami

/-! ## Data model -/

/-- One vertex object `{ x, y, ox, oy }`. -/
structure Vertex where
  x : ℚ
  y : ℚ
  ox : ℚ
  oy : ℚ
  deriving DecidableEq, Repr

/-- One part object `{ p: [...], shade }`. -/
structure Part where
  p : List Vertex
  shade : ℚ
  deriving DecidableEq, Repr

/-- The shape object `{ color, parts }`. -/
structure Shape where
  color : String
  parts : List Part
  deriving DecidableEq, Repr

/-- A crease segment `[x1, y1, x2, y2]`. -/
abbrev Crease := ℚ × ℚ × ℚ × ℚ

/-- The p5 values the generator reads: the constant `TWO_PI` and the
functions `cos` and `sin`. -/
structure P5 where
  TWO_PI : ℚ
  cos : ℚ → ℚ
  sin : ℚ → ℚ

/-- The values returned by the calls of `random` made during one run of
`generateProceduralShape`, in source order: `random(4, 12)`,
`random(palette)` (as an index into the palette), `random(3)`, and for
wedge `i` the pair `random(40, 90)`, `random(130, 190)`. -/
structure Draws where
  sides : ℚ
  paletteIdx : Fin 8
  style : ℚ
  innerR : ℕ → ℚ
  outerR : ℕ → ℚ

/-- The global variables of the sketch after `setup`, plus the visibility of
the start overlay (`startScreen`) and the record of `playPaperSound` calls. -/
structure World where
  state : ℤ
  currentShape : Shape
  animProgress : ℚ
  isFolding : Bool
  paperSize : ℚ
  creaseLines : List Crease
  hasCreases : Bool
  ignoreNextCanvasClick : Bool
  startScreenShown : Bool
  sfxCalls : List Bool
  deriving DecidableEq

/-! ## Procedural shape generation (`generateProceduralShape`) -/

/-- The local array `palette`. -/
def palette : List String :=
  ["#FFD1DC", "#B3E5FC", "#C8E6C9", "#FFF9C4", "#F8BBD0", "#E1BEE7", "#FFE0B2", "#AFCBFF"]

/-- The two `parts.push` calls of loop iteration `i`. -/
def wedgeParts (env : P5) (d : Draws) (angleStep : ℚ) (style : ℤ) (i : ℕ) : List Part :=
  let a1 := (i : ℚ) * angleStep
  let a2 := ((i : ℚ) + 1) * angleStep
  let midA := (a1 + a2) / 2
  let innerR := if style = 0 then 70 else d.innerR i
  let outerR := if style = 0 then 175 else d.outerR i
  [ { p := [ { x := 0, y := 0, ox := 0, oy := 0 },
             { x := env.cos a1 * innerR, y := env.sin a1 * innerR,
               ox := env.cos a1, oy := env.sin a1 },
             { x := env.cos midA * outerR, y := env.sin midA * outerR,
               ox := env.cos midA, oy := env.sin midA } ],
      shade := if i % 2 = 0 then 1/20 else 3/20 },
    { p := [ { x := 0, y := 0, ox := 0, oy := 0 },
             { x := env.cos a2 * innerR, y := env.sin a2 * innerR,
               ox := env.cos a2, oy := env.sin a2 },
             { x := env.cos midA * outerR, y := env.sin midA * outerR,
               ox := env.cos midA, oy := env.sin midA } ],
      shade := if i % 2 = 0 then 1/10 else 1/5 } ]

/-- The local `sides = floor(random(4, 12))`. -/
def sidesOf (d : Draws) : ℤ := ⌊d.sides⌋

/-- The function `generateProceduralShape`: the loop `for (i = 0; i < sides; i++)`
pushes two parts per iteration. -/
def generateProceduralShape (env : P5) (d : Draws) : Shape :=
  let sides := sidesOf d
  let angleStep := env.TWO_PI / (sides : ℚ)
  let mainColor := palette.getD d.paletteIdx.val ""
  let style : ℤ := ⌊d.style⌋
  let parts := (List.range sides.toNat).foldl
    (fun parts i => parts ++ wedgeParts env d angleStep style i) []
  { color := mainColor, parts := parts }

/-! ## Crease pattern (`generateCreasePattern`) -/

/-- The loop `for (let partObj of targetShape.parts)`: reads `partObj.p[1]` and
`partObj.p[2]` and pushes two segments; a missing vertex is a `TypeError`. -/
def creaseLoop (s : ℚ) : List Part → List Crease → Option (List Crease)
  | [], acc => some acc
  | partObj :: rest, acc =>
    match partObj.p[1]?, partObj.p[2]? with
    | some p2, some p3 =>
      creaseLoop s rest
        (acc ++ [(0, 0, p2.ox * s, p2.oy * s), (p2.ox * s, p2.oy * s, p3.ox * s, p3.oy * s)])
    | _, _ => none

/-- The function `generateCreasePattern(targetShape)`. -/
def generateCreasePattern (targetShape : Shape) (w : World) : Option World :=
  let s := w.paperSize / 2
  let base : List Crease := [(-s, -s, s, s), (-s, s, s, -s), (0, -s, 0, s), (-s, 0, s, 0)]
  match creaseLoop s targetShape.parts base with
  | some lines => some { w with creaseLines := lines }
  | none => none

/-! ## Easing -/

/-- The function `easeInOutQuart(x)`, over any ordered field. -/
def easeInOutQuart {α : Type} [LinearOrderedField α] (x : α) : α :=
  if x < 1/2 then 8 * x * x * x * x else 1 - (-2 * x + 2) ^ 4 / 2

/-! ## Handlers -/

/-- The globals after the top-level declarations and `setup()`, for a window
of the given size. -/
def setup (env : P5) (windowWidth windowHeight : ℕ) (d : Draws) : World :=
  { state := -1
    currentShape := generateProceduralShape env d
    animProgress := 0
    isFolding := true
    paperSize := min (windowWidth : ℚ) (windowHeight : ℚ) * (7/10)
    creaseLines := []
    hasCreases := false
    ignoreNextCanvasClick := false
    startScreenShown := true
    sfxCalls := [] }

/-- The handler registered by `startBtn.mousePressed(...)`. -/
def startBtnPressed (w : World) : World :=
  { w with ignoreNextCanvasClick := true, startScreenShown := false, state := 0 }

/-- The call `playPaperSound(isFold)`, recorded as a request. -/
def playPaperSound (isFold : Bool) (w : World) : World :=
  { w with sfxCalls := w.sfxCalls ++ [isFold] }

/-- The function `mousePressed`. -/
def mousePressed (w : World) : World :=
  if w.state = -1 then w
  else if w.ignoreNextCanvasClick then { w with ignoreNextCanvasClick := false }
  else if w.state = 0 then
    playPaperSound true { w with isFolding := true, animProgress := 0, state := 1 }
  else if w.state = 2 then
    playPaperSound false { w with isFolding := false, animProgress := 1, state := 1 }
  else w

/-- The local constant `step` of `handleAnimation`. -/
def step : ℚ := 3/100

/-- The function `handleAnimation`; `d` resolves the random calls of the
shape generation done when an unfold finishes. -/
def handleAnimation (env : P5) (d : Draws) (w : World) : Option World :=
  if w.isFolding then
    let w1 : World := { w with animProgress := w.animProgress + step }
    if w1.animProgress ≥ (1 : ℚ) then some { w1 with animProgress := 1, state := 2 }
    else some w1
  else
    let w1 : World := { w with animProgress := w.animProgress - step }
    if w1.animProgress ≤ (0 : ℚ) then
      let w2 : World := { w1 with animProgress := 0 }
      match generateCreasePattern w2.currentShape w2 with
      | some w3 =>
        some { w3 with hasCreases := true, currentShape := generateProceduralShape env d,
                       state := 0 }
      | none => none
    else some w1

/-- The function `draw`, restricted to its effect on the globals. -/
def draw (env : P5) (d : Draws) (w : World) : Option World :=
  if w.state = -1 then some w
  else if w.state = 0 then some w
  else if w.state = 1 then handleAnimation env d w
  else some w

/-- The function `windowResized`, for the new window size. -/
def windowResized (windowWidth windowHeight : ℕ) (w : World) : Option World :=
  let w1 : World := { w with paperSize := min (windowWidth : ℚ) (windowHeight : ℚ) * (7/10) }
  if w1.hasCreases then generateCreasePattern w1.currentShape w1 else some w1

/-- Repeated per-tick update: `n` calls of `handleAnimation`, call number `k`
(from 0) using the draws `ds k`. -/
def animate (env : P5) (ds : ℕ → Draws) : ℕ → World → Option World
  | 0, w => some w
  | n + 1, w => (animate env ds n w).bind (handleAnimation env (ds n))

/-! ## Events -/

/-- The events delivered to the sketch after `setup`. -/
inductive Event where
  | begin
  | click
  | tick (d : Draws)
  | resize (windowWidth windowHeight : ℕ)

/-- Delivery of one event. The start button is a child of `startScreen`, which
its own handler hides (`startScreen.hide()`): a hidden button receives no
press, so `begin` runs the handler only while the overlay is shown. -/
def deliver (env : P5) (w : World) : Event → Option World
  | Event.begin => if w.startScreenShown then some (startBtnPressed w) else some w
  | Event.click => some (mousePressed w)
  | Event.tick d => draw env d w
  | Event.resize windowWidth windowHeight => windowResized windowWidth windowHeight w

/-- Delivery of a sequence of events, first to last. -/
def run (env : P5) : World → List Event → Option World
  | w, [] => some w
  | w, e :: es =>
    match deliver env w e with
    | some w1 => run env w1 es
    | none => none

/-! ## Specification-side definitions -/

/-- Every part of the shape is a triangle: its vertex array has 3 entries. -/
def Shape.Triangular (sh : Shape) : Prop := ∀ part ∈ sh.parts, part.p.length = 3

/-- The two segments the specification derives from a part: centre to the
direction of its second vertex, and second to third vertex, scaled by `h`. -/
def partCreases (h : ℚ) (part : Part) : List Crease :=
  match part.p with
  | _ :: p2 :: p3 :: _ => [(0, 0, p2.ox * h, p2.oy * h), (p2.ox * h, p2.oy * h, p3.ox * h, p3.oy * h)]
  | _ => []

/-- The specification's `deriveCreases(shape, paperHalfSize)`: the two
diagonals, the vertical and the horizontal midline, then two segments per part. -/
def deriveCreases (sh : Shape) (h : ℚ) : List Crease :=
  [(-h, -h, h, h), (-h, h, h, -h), (0, -h, 0, h), (-h, 0, h, 0)] ++ sh.parts.flatMap (partCreases h)

/-- Rational stand-ins for the p5 trigonometry, used at concrete inputs only. -/
def sampleP5 : P5 :=
  { TWO_PI := 710 / 113
    cos := fun a => 1 - a * a / 2
    sin := fun a => a - a * a * a / 6 }

/-- Draws giving a shape with 4 sides in the fixed-radius style. -/
def drawsA : Draws :=
  { sides := 9 / 2, paletteIdx := 0, style := 1 / 2, innerR := fun _ => 50, outerR := fun _ => 150 }

/-- Draws giving a shape with 5 sides in the per-wedge radius style. -/
def drawsB : Draws :=
  { sides := 11 / 2, paletteIdx := 3, style := 5 / 2, innerR := fun i => 40 + i,
    outerR := fun i => 130 + 2 * i }

/-- The initial world for an 800 x 600 window and the draws `drawsA`. -/
def world0 : World := setup sampleP5 800 600 drawsA

/-- A world in the middle of the interaction: transition state, folding, progress 0. -/
def worldFolding : World := mousePressed (mousePressed (startBtnPressed world0))

/-- From `world0`: begin, the swallowed click, a click and 34 ticks (fold), a
click and 33 ticks (unfold, one tick short of completion). -/
def untilLastTick : List Event :=
  [Event.begin, Event.click, Event.click] ++ List.replicate 34 (Event.tick drawsB) ++
    [Event.click] ++ List.replicate 33 (Event.tick drawsB)

/-- One full fold and unfold on `world0`; the shape generated when the unfold
completes comes from `drawsB`. -/
def foldUnfoldOnce : List Event := untilLastTick ++ [Event.tick drawsB]

/-! ## Basic facts about the handlers -/

theorem handleAnimation_folding_lt (env : P5) (d : Draws) (w : World)
    (hf : w.isFolding = true) (hlt : w.animProgress + step < 1) :
    handleAnimation env d w = some { w with animProgress := w.animProgress + step } := by
  simp [handleAnimation, hf, not_le.mpr hlt]

theorem handleAnimation_folding_ge (env : P5) (d : Draws) (w : World)
    (hf : w.isFolding = true) (hge : 1 ≤ w.animProgress + step) :
    handleAnimation env d w = some { w with animProgress := 1, state := 2 } := by
  simp [handleAnimation, hf, hge]

theorem animate_folding (env : P5) (ds : ℕ → Draws) (w : World)
    (hf : w.isFolding = true) (h0 : w.animProgress = 0) :
    ∀ k : ℕ, k ≤ 33 → animate env ds k w = some { w with animProgress := (k : ℚ) * step } := by
  intro k
  induction k with
  | zero =>
    intro _
    cases w
    simp_all [animate]
  | succ n ih =>
    intro hk
    have hn : n ≤ 32 := by omega
    have hq : (n : ℚ) ≤ 32 := by exact_mod_cast hn
    rw [animate, ih (by omega), Option.some_bind, handleAnimation_folding_lt]
    · simp only [Nat.cast_succ]
      congr 2
      ring
    · exact hf
    · simp only [step]
      linarith

theorem handleAnimation_unfolding_pos (env : P5) (d : Draws) (w : World)
    (hf : w.isFolding = false) (hpos : 0 < w.animProgress - step) :
    handleAnimation env d w = some { w with animProgress := w.animProgress - step } := by
  simp [handleAnimation, hf, not_le.mpr hpos]

theorem animate_unfolding (env : P5) (ds : ℕ → Draws) (w : World)
    (hf : w.isFolding = false) (h1 : w.animProgress = 1) :
    ∀ k : ℕ, k ≤ 33 →
      animate env ds k w = some { w with animProgress := 1 - (k : ℚ) * step } := by
  intro k
  induction k with
  | zero =>
    intro _
    cases w
    simp_all [animate]
  | succ n ih =>
    intro hk
    have hn : n ≤ 32 := by omega
    have hq : (n : ℚ) ≤ 32 := by exact_mod_cast hn
    rw [animate, ih (by omega), Option.some_bind, handleAnimation_unfolding_pos]
    · simp only [Nat.cast_succ]
      congr 2
      ring
    · exact hf
    · simp only [step]
      linarith

/-! ## Facts about the generator -/

theorem foldl_push_eq_flatMap (f : ℕ → List Part) (l : List ℕ) (acc : List Part) :
    l.foldl (fun parts i => parts ++ f i) acc = acc ++ l.flatMap f := by
  induction l generalizing acc with
  | nil => simp
  | cons a l ih => simp [List.foldl_cons, ih, List.flatMap_cons, List.append_assoc]

theorem generateProceduralShape_parts (env : P5) (d : Draws) :
    (generateProceduralShape env d).parts
      = (List.range (sidesOf d).toNat).flatMap
          (wedgeParts env d (env.TWO_PI / (sidesOf d : ℚ)) ⌊d.style⌋) := by
  simp [generateProceduralShape, foldl_push_eq_flatMap]

theorem length_flatMap_pairs (f : ℕ → List Part) (l : List ℕ) (h : ∀ i, (f i).length = 2) :
    (l.flatMap f).length = 2 * l.length := by
  induction l with
  | nil => simp
  | cons a l ih =>
    simp only [List.flatMap_cons, List.length_append, ih, h, List.length_cons]
    omega

theorem generateProceduralShape_length (env : P5) (d : Draws) :
    (generateProceduralShape env d).parts.length = 2 * (sidesOf d).toNat := by
  rw [generateProceduralShape_parts, length_flatMap_pairs _ _ (fun i => by simp [wedgeParts]),
    List.length_range]

theorem wedgeParts_mem (env : P5) (d : Draws) (angleStep : ℚ) (style : ℤ) (i : ℕ) (part : Part)
    (h : part ∈ wedgeParts env d angleStep style i) :
    part.p.length = 3 ∧
      (part.shade = 1/20 ∨ part.shade = 1/10 ∨ part.shade = 3/20 ∨ part.shade = 1/5) := by
  simp only [wedgeParts, List.mem_cons, List.mem_singleton, List.not_mem_nil, or_false] at h
  rcases h with h | h <;> subst h <;> refine ⟨rfl, ?_⟩ <;> by_cases hp : i % 2 = 0 <;> simp [hp]

theorem generateProceduralShape_mem (env : P5) (d : Draws) (part : Part)
    (h : part ∈ (generateProceduralShape env d).parts) :
    part.p.length = 3 ∧
      (part.shade = 1/20 ∨ part.shade = 1/10 ∨ part.shade = 3/20 ∨ part.shade = 1/5) := by
  rw [generateProceduralShape_parts, List.mem_flatMap] at h
  obtain ⟨i, _, hi⟩ := h
  exact wedgeParts_mem env d _ _ i part hi

theorem generateProceduralShape_triangular (env : P5) (d : Draws) :
    (generateProceduralShape env d).Triangular :=
  fun part h => (generateProceduralShape_mem env d part h).1

/-! ## Facts about the crease pattern -/

theorem creaseLoop_eq (s : ℚ) (parts : List Part) (h : ∀ part ∈ parts, part.p.length = 3)
    (acc : List Crease) :
    creaseLoop s parts acc = some (acc ++ parts.flatMap (partCreases s)) := by
  induction parts generalizing acc with
  | nil => simp [creaseLoop]
  | cons a rest ih =>
    have ha : a.p.length = 3 := h a (List.mem_cons_self _ _)
    have hrest : ∀ part ∈ rest, part.p.length = 3 :=
      fun part hp => h part (List.mem_cons_of_mem _ hp)
    obtain ⟨p, shade⟩ := a
    match p, ha with
    | [v1, v2, v3], _ =>
      simp [creaseLoop, ih hrest, partCreases, List.flatMap_cons, List.append_assoc]

theorem generateCreasePattern_eq (sh : Shape) (w : World) (h : sh.Triangular) :
    generateCreasePattern sh w
      = some { w with creaseLines := deriveCreases sh (w.paperSize / 2) } := by
  simp [generateCreasePattern, creaseLoop_eq _ _ h, deriveCreases]

theorem partCreases_length (s : ℚ) (part : Part) (h : part.p.length = 3) :
    (partCreases s part).length = 2 := by
  obtain ⟨p, shade⟩ := part
  match p, h with
  | [v1, v2, v3], _ => rfl

theorem deriveCreases_length (sh : Shape) (s : ℚ) (h : sh.Triangular) :
    (deriveCreases sh s).length = 4 + 2 * sh.parts.length := by
  have key : ∀ parts : List Part, (∀ part ∈ parts, part.p.length = 3) →
      (parts.flatMap (partCreases s)).length = 2 * parts.length := by
    intro parts
    induction parts with
    | nil => simp
    | cons a rest ih =>
      intro hall
      simp only [List.flatMap_cons, List.length_append, List.length_cons,
        partCreases_length s a (hall a (List.mem_cons_self _ _)),
        ih (fun part hp => hall part (List.mem_cons_of_mem _ hp))]
      omega
  simp only [deriveCreases, List.length_append, key sh.parts h, List.length_cons, List.length_nil]

theorem flatMap_partCreases_getElem (s : ℚ) (parts : List Part)
    (h : ∀ part ∈ parts, part.p.length = 3) (i : ℕ) (v1 v2 v3 : Vertex) (shade : ℚ)
    (hi : parts[i]? = some { p := [v1, v2, v3], shade := shade }) :
    (parts.flatMap (partCreases s))[2 * i]? = some (0, 0, v2.ox * s, v2.oy * s) ∧
    (parts.flatMap (partCreases s))[2 * i + 1]?
      = some (v2.ox * s, v2.oy * s, v3.ox * s, v3.oy * s) := by
  induction parts generalizing i with
  | nil => simp at hi
  | cons a rest ih =>
    have ha : (partCreases s a).length = 2 := partCreases_length s a (h a (List.mem_cons_self _ _))
    cases i with
    | zero =>
      simp only [List.getElem?_cons_zero, Option.some.injEq] at hi
      subst hi
      simp [List.flatMap_cons, partCreases]
    | succ j =>
      simp only [List.getElem?_cons_succ] at hi
      have hrec := ih (fun part hp => h part (List.mem_cons_of_mem _ hp)) j hi
      have e1 : 2 * (j + 1) = 2 * j + (partCreases s a).length := by omega
      have e2 : 2 * (j + 1) + 1 = (2 * j + 1) + (partCreases s a).length := by omega
      constructor
      · rw [List.flatMap_cons, e1, List.getElem?_append_right (by omega)]
        simpa using hrec.1
      · rw [List.flatMap_cons, e2, List.getElem?_append_right (by omega)]
        simpa using hrec.2

/-! ## The invariant -/

theorem handleAnimation_unfolding_done (env : P5) (d : Draws) (w : World)
    (hf : w.isFolding = false) (hle : w.animProgress - step ≤ 0)
    (htri : w.currentShape.Triangular) :
    handleAnimation env d w
      = some { w with animProgress := 0
                      creaseLines := deriveCreases w.currentShape (w.paperSize / 2)
                      hasCreases := true
                      currentShape := generateProceduralShape env d
                      state := 0 } := by
  simp only [handleAnimation, hf, hle, if_true, generateCreasePattern_eq _ _ htri]
  simp

theorem windowResized_eq (windowWidth windowHeight : ℕ) (w : World)
    (htri : w.currentShape.Triangular) :
    windowResized windowWidth windowHeight w
      = some (if w.hasCreases then
          { w with paperSize := min (windowWidth : ℚ) (windowHeight : ℚ) * (7/10)
                   creaseLines := deriveCreases w.currentShape
                     (min (windowWidth : ℚ) (windowHeight : ℚ) * (7/10) / 2) }
        else { w with paperSize := min (windowWidth : ℚ) (windowHeight : ℚ) * (7/10) }) := by
  cases hc : w.hasCreases with
  | true =>
    simp only [windowResized, hc, if_true]
    exact generateCreasePattern_eq _ _ htri
  | false => simp [windowResized, hc]

theorem run_append (env : P5) (es1 es2 : List Event) :
    ∀ w : World, run env w (es1 ++ es2) = (run env w es1).bind (fun w1 => run env w1 es2) := by
  induction es1 with
  | nil => exact fun w => rfl
  | cons e es ih =>
    intro w
    cases hd : deliver env w e with
    | none => simp [run, hd]
    | some w1 => simp [run, hd, ih w1]

theorem draw_transition (env : P5) (d : Draws) (w : World) (hs : w.state = 1) :
    draw env d w = handleAnimation env d w := by
  simp [draw, hs]

theorem run_tick (env : P5) (d : Draws) (w : World) (hs : w.state = 1) :
    run env w [Event.tick d] = (handleAnimation env d w).bind some := by
  cases h : handleAnimation env d w <;> simp [run, deliver, draw_transition env d w hs, h]

theorem run_ticks_folding (env : P5) (d : Draws) (w : World)
    (hs : w.state = 1) (hf : w.isFolding = true) (h0 : w.animProgress = 0) :
    ∀ k : ℕ, k ≤ 33 →
      run env w (List.replicate k (Event.tick d))
        = some { w with animProgress := (k : ℚ) * step } := by
  intro k
  induction k with
  | zero =>
    intro _
    cases w
    simp_all [run]
  | succ n ih =>
    intro hk
    have hq : (n : ℚ) ≤ 32 := by exact_mod_cast (by omega : n ≤ 32)
    rw [List.replicate_succ', run_append, ih (by omega), Option.some_bind, run_tick _ _ _ (by exact hs),
      handleAnimation_folding_lt _ _ _ (by exact hf)]
    · simp only [Nat.cast_succ, Option.some_bind]
      congr 2
      ring
    · simp only [step]
      linarith

theorem run_ticks_folding_34 (env : P5) (d : Draws) (w : World)
    (hs : w.state = 1) (hf : w.isFolding = true) (h0 : w.animProgress = 0) :
    run env w (List.replicate 34 (Event.tick d))
      = some { w with animProgress := 1, state := 2 } := by
  rw [List.replicate_succ', run_append, run_ticks_folding env d w hs hf h0 33 le_rfl,
    Option.some_bind, run_tick _ _ _ (by exact hs), handleAnimation_folding_ge _ _ _ (by exact hf)]
  · rfl
  · norm_num [step]

theorem run_ticks_unfolding (env : P5) (d : Draws) (w : World)
    (hs : w.state = 1) (hf : w.isFolding = false) (h1 : w.animProgress = 1) :
    ∀ k : ℕ, k ≤ 33 →
      run env w (List.replicate k (Event.tick d))
        = some { w with animProgress := 1 - (k : ℚ) * step } := by
  intro k
  induction k with
  | zero =>
    intro _
    cases w
    simp_all [run]
  | succ n ih =>
    intro hk
    have hq : (n : ℚ) ≤ 32 := by exact_mod_cast (by omega : n ≤ 32)
    rw [List.replicate_succ', run_append, ih (by omega), Option.some_bind, run_tick _ _ _ (by exact hs),
      handleAnimation_unfolding_pos _ _ _ (by exact hf)]
    · simp only [Nat.cast_succ, Option.some_bind]
      congr 2
      ring
    · simp only [step]
      linarith

theorem run_ticks_unfolding_34 (env : P5) (d : Draws) (w : World)
    (hs : w.state = 1) (hf : w.isFolding = false) (h1 : w.animProgress = 1)
    (htri : w.currentShape.Triangular) :
    run env w (List.replicate 34 (Event.tick d))
      = some { w with animProgress := 0
                      creaseLines := deriveCreases w.currentShape (w.paperSize / 2)
                      hasCreases := true
                      currentShape := generateProceduralShape env d
                      state := 0 } := by
  rw [List.replicate_succ', run_append, run_ticks_unfolding env d w hs hf h1 33 le_rfl,
    Option.some_bind, run_tick _ _ _ (by exact hs),
    handleAnimation_unfolding_done _ _ _ (by exact hf) (by norm_num [step]) (by exact htri)]
  rfl

/-! ## Crease memory before the first unfold -/

theorem sidesOf_drawsA : sidesOf drawsA = 4 := by
  simp only [sidesOf, drawsA]
  rw [Int.floor_eq_iff]
  norm_num

theorem sidesOf_drawsB : sidesOf drawsB = 5 := by
  simp only [sidesOf, drawsB]
  rw [Int.floor_eq_iff]
  norm_num

/-! ## Claims -/

/-- C1. From a menu state with the ignore flag clear, the start button handler
sets `state` to 0; the first `mousePressed` after it only clears the ignore
flag (state stays 0, `animProgress` and `isFolding` unchanged); the second
`mousePressed` sets `state = 1`, `isFolding = true`, `animProgress = 0`. -/
theorem begin_swallows_first_click (w : World)
    (_hs : w.state = -1) (hi : w.ignoreNextCanvasClick = false) :
    (startBtnPressed w).state = 0 ∧
    mousePressed (startBtnPressed w) = { w with state := 0, startScreenShown := false } ∧
    mousePressed (startBtnPressed w)
      = { startBtnPressed w with ignoreNextCanvasClick := false } ∧
    (mousePressed (startBtnPressed w)).state = 0 ∧
    (mousePressed (startBtnPressed w)).animProgress = w.animProgress ∧
    (mousePressed (startBtnPressed w)).isFolding = w.isFolding ∧
    (mousePressed (startBtnPressed w)).sfxCalls = w.sfxCalls ∧
    (mousePressed (mousePressed (startBtnPressed w))).state = 1 ∧
    (mousePressed (mousePressed (startBtnPressed w))).isFolding = true ∧
    (mousePressed (mousePressed (startBtnPressed w))).animProgress = 0 := by
  refine ⟨rfl, ?_, ?_⟩
  · cases w
    simp_all [startBtnPressed, mousePressed]
  · simp [startBtnPressed, mousePressed, playPaperSound]

/-- C2. From `state = 1`, `isFolding = true`, `animProgress = 0`, after each of
the first 33 calls of `handleAnimation` the state is still 1 with
`animProgress < 1`, and after the 34th call `state = 2` and `animProgress = 1`. -/
theorem folding_reaches_folded_at_tick_34 (env : P5) (ds : ℕ → Draws) (w : World)
    (hs : w.state = 1) (hf : w.isFolding = true) (h0 : w.animProgress = 0) :
    (∀ k : ℕ, k ≤ 33 → ∃ w1, animate env ds k w = some w1 ∧ w1.state = 1 ∧
        w1.animProgress = (k : ℚ) * (3 / 100) ∧ w1.animProgress < 1) ∧
    ∃ w2, animate env ds 34 w = some w2 ∧ w2.state = 2 ∧ w2.animProgress = 1 := by
  constructor
  · intro k hk
    refine ⟨_, animate_folding env ds w hf h0 k hk, hs, rfl, ?_⟩
    have hq : (k : ℚ) ≤ 33 := by exact_mod_cast hk
    simp only [step]
    linarith
  · refine ⟨{ w with animProgress := 1, state := 2 }, ?_, rfl, rfl⟩
    rw [animate, animate_folding env ds w hf h0 33 le_rfl, Option.some_bind,
      handleAnimation_folding_ge]
    · exact hf
    · simp only [step]
      norm_num

/-- C4. A `mousePressed` delivered while `state` is 1 (transition) or -1 (menu)
leaves `state`, `animProgress` and `isFolding` as they were and records no
`playPaperSound` call, whatever the other globals are. -/
theorem click_ignored_in_transition_and_menu (w : World)
    (hs : w.state = 1 ∨ w.state = -1) :
    (mousePressed w).state = w.state ∧
    (mousePressed w).animProgress = w.animProgress ∧
    (mousePressed w).isFolding = w.isFolding ∧
    (mousePressed w).sfxCalls = w.sfxCalls ∧
    (mousePressed w).currentShape = w.currentShape ∧
    (mousePressed w).creaseLines = w.creaseLines ∧
    (mousePressed w).hasCreases = w.hasCreases := by
  rcases hs with hs | hs
  · cases hi : w.ignoreNextCanvasClick <;> simp [mousePressed, hs, hi]
  · simp [mousePressed, hs]

theorem begin_swallows_first_click_witness :
    world0.state = -1 ∧ world0.ignoreNextCanvasClick = false ∧
    (mousePressed (startBtnPressed world0)).state = 0 ∧
    (mousePressed (mousePressed (startBtnPressed world0))).state = 1 :=
  ⟨rfl, rfl, (begin_swallows_first_click world0 rfl rfl).2.2.2.1,
    (begin_swallows_first_click world0 rfl rfl).2.2.2.2.2.2.2.1⟩

theorem folding_reaches_folded_at_tick_34_witness :
    worldFolding.state = 1 ∧ worldFolding.isFolding = true ∧ worldFolding.animProgress = 0 ∧
    ∃ w2, animate sampleP5 (fun _ => drawsB) 34 worldFolding = some w2 ∧ w2.state = 2 ∧
      w2.animProgress = 1 :=
  ⟨rfl, rfl, rfl,
    (folding_reaches_folded_at_tick_34 sampleP5 (fun _ => drawsB) worldFolding rfl rfl rfl).2⟩

theorem click_ignored_in_transition_and_menu_witness :
    (worldFolding.state = 1 ∨ worldFolding.state = -1) ∧
    (mousePressed worldFolding).state = worldFolding.state :=
  ⟨Or.inl rfl, (click_ignored_in_transition_and_menu worldFolding (Or.inl rfl)).1⟩

/-- C6. When `random(4, 12)` returns `r` with `4 ≤ r < 12`, whatever the other
draws are, the generated shape has `sides = floor(r)` between 4 and 11,
`parts.length = 2 * sides` (an even number), every part has exactly 3 vertices
and every shade is one of 0.05, 0.1, 0.15, 0.2. -/
theorem generated_shape_parts_and_shades (env : P5) (d : Draws)
    (hlo : 4 ≤ d.sides) (hhi : d.sides < 12) :
    sidesOf d = ⌊d.sides⌋ ∧ 4 ≤ sidesOf d ∧ sidesOf d ≤ 11 ∧
    ((generateProceduralShape env d).parts.length : ℤ) = 2 * sidesOf d ∧
    Even (generateProceduralShape env d).parts.length ∧
    ∀ part ∈ (generateProceduralShape env d).parts,
      part.p.length = 3 ∧
      (part.shade = 1/20 ∨ part.shade = 1/10 ∨ part.shade = 3/20 ∨ part.shade = 1/5) := by
  have h4 : 4 ≤ sidesOf d := Int.le_floor.mpr (by exact_mod_cast hlo)
  have h12 : sidesOf d < 12 := Int.floor_lt.mpr (by exact_mod_cast hhi)
  refine ⟨rfl, h4, by omega, ?_, ?_, generateProceduralShape_mem env d⟩
  · rw [generateProceduralShape_length]
    omega
  · rw [generateProceduralShape_length]
    exact even_two_mul _

theorem generated_shape_parts_and_shades_witness :
    (4 : ℚ) ≤ drawsB.sides ∧ drawsB.sides < 12 ∧
    ((generateProceduralShape sampleP5 drawsB).parts.length : ℤ) = 2 * sidesOf drawsB :=
  ⟨by norm_num [drawsB], by norm_num [drawsB],
    (generated_shape_parts_and_shades sampleP5 drawsB (by norm_num [drawsB])
      (by norm_num [drawsB])).2.2.2.1⟩

/-- C7. For every shape made of triangles and every previous content `prev` of
`creaseLines`, `generateCreasePattern(shape)` succeeds and only replaces
`creaseLines`, by a list that does not depend on `prev`: it has
`4 + 2 * parts.length` segments, the first four are the two diagonals, the
vertical midline and the horizontal midline for `s = paperSize / 2`, and part
number `i` with vertices `v1, v2, v3` contributes, at positions `4 + 2 i` and
`4 + 2 i + 1`, the segments `(0,0) -> (v2.ox s, v2.oy s)` and
`(v2.ox s, v2.oy s) -> (v3.ox s, v3.oy s)`. -/
theorem crease_pattern_rebuilt_from_scratch (sh : Shape) (w : World) (prev : List Crease)
    (h : sh.Triangular) :
    ∃ w1, generateCreasePattern sh { w with creaseLines := prev } = some w1 ∧
      w1 = { w with creaseLines := deriveCreases sh (w.paperSize / 2) } ∧
      w1.creaseLines.length = 4 + 2 * sh.parts.length ∧
      w1.creaseLines.take 4
        = [(-(w.paperSize / 2), -(w.paperSize / 2), w.paperSize / 2, w.paperSize / 2),
           (-(w.paperSize / 2), w.paperSize / 2, w.paperSize / 2, -(w.paperSize / 2)),
           (0, -(w.paperSize / 2), 0, w.paperSize / 2),
           (-(w.paperSize / 2), 0, w.paperSize / 2, 0)] ∧
      ∀ (i : ℕ) (v1 v2 v3 : Vertex) (shade : ℚ),
        sh.parts[i]? = some { p := [v1, v2, v3], shade := shade } →
        w1.creaseLines[4 + 2 * i]?
          = some (0, 0, v2.ox * (w.paperSize / 2), v2.oy * (w.paperSize / 2)) ∧
        w1.creaseLines[4 + 2 * i + 1]?
          = some (v2.ox * (w.paperSize / 2), v2.oy * (w.paperSize / 2),
                  v3.ox * (w.paperSize / 2), v3.oy * (w.paperSize / 2)) := by
  refine ⟨_, generateCreasePattern_eq sh _ h, rfl, deriveCreases_length sh _ h, ?_, ?_⟩
  · simp [deriveCreases]
  · intro i v1 v2 v3 shade hi
    have hrec := flatMap_partCreases_getElem (w.paperSize / 2) sh.parts h i v1 v2 v3 shade hi
    have e1 : 4 + 2 * i = 2 * i + 4 := by omega
    have e2 : 4 + 2 * i + 1 = (2 * i + 1) + 4 := by omega
    constructor
    · show (deriveCreases sh (w.paperSize / 2))[4 + 2 * i]? = _
      rw [deriveCreases, e1, List.getElem?_append_right (by simp)]
      simpa using hrec.1
    · show (deriveCreases sh (w.paperSize / 2))[4 + 2 * i + 1]? = _
      rw [deriveCreases, e2, List.getElem?_append_right (by simp)]
      simpa using hrec.2

theorem crease_pattern_rebuilt_from_scratch_witness :
    world0.currentShape.Triangular ∧
    ∃ w1, generateCreasePattern world0.currentShape
        { world0 with creaseLines := [(1, 2, 3, 4)] } = some w1 ∧
      w1.creaseLines.length = 4 + 2 * world0.currentShape.parts.length :=
  ⟨generateProceduralShape_triangular sampleP5 drawsA,
    (crease_pattern_rebuilt_from_scratch world0.currentShape world0 [(1, 2, 3, 4)]
      (generateProceduralShape_triangular sampleP5 drawsA)).imp
      (fun _ hw => ⟨hw.1, hw.2.2.1⟩)⟩

/-- C8. Over the reals, `easeInOutQuart(0) = 0`, `easeInOutQuart(0.5) = 0.5`,
`easeInOutQuart(1) = 1`, the function is non-decreasing on `[0, 1]`, and it
maps `[0, 1]` into `[0, 1]`. -/
theorem easeInOutQuart_endpoints_and_monotone :
    easeInOutQuart (0 : ℝ) = 0 ∧ easeInOutQuart (1 / 2 : ℝ) = 1 / 2 ∧
    easeInOutQuart (1 : ℝ) = 1 ∧
    (∀ s t : ℝ, 0 ≤ s → s ≤ t → t ≤ 1 → easeInOutQuart s ≤ easeInOutQuart t) ∧
    (∀ t : ℝ, 0 ≤ t → t ≤ 1 → 0 ≤ easeInOutQuart t ∧ easeInOutQuart t ≤ 1) := by
  have mono : ∀ s t : ℝ, 0 ≤ s → s ≤ t → t ≤ 1 → easeInOutQuart s ≤ easeInOutQuart t := by
    intro s t h0 hst h1
    unfold easeInOutQuart
    split_ifs with hs ht ht
    · have := pow_le_pow_left₀ h0 hst 4
      nlinarith
    · have h4 : s ^ 4 ≤ (1 / 2 : ℝ) ^ 4 := pow_le_pow_left₀ h0 hs.le 4
      have h5 : (-2 * t + 2) ^ 4 ≤ (1 : ℝ) ^ 4 :=
        pow_le_pow_left₀ (by linarith) (by linarith) 4
      nlinarith
    · linarith
    · have := pow_le_pow_left₀ (by linarith : (0 : ℝ) ≤ -2 * t + 2)
        (by linarith : -2 * t + 2 ≤ -2 * s + 2) 4
      linarith
  have e0 : easeInOutQuart (0 : ℝ) = 0 := by norm_num [easeInOutQuart]
  have e1 : easeInOutQuart (1 : ℝ) = 1 := by norm_num [easeInOutQuart]
  refine ⟨e0, by norm_num [easeInOutQuart], e1, mono, ?_⟩
  intro t h0 h1
  constructor
  · rw [← e0]
    exact mono 0 t le_rfl h0 h1
  · rw [← e1]
    exact mono t 1 h0 h1 le_rfl

theorem easeInOutQuart_endpoints_and_monotone_witness :
    easeInOutQuart (1 / 4 : ℝ) ≤ easeInOutQuart (3 / 4 : ℝ) :=
  easeInOutQuart_endpoints_and_monotone.2.2.2.1 (1 / 4) (3 / 4)
    (by norm_num) (by norm_num) (by norm_num)

/-- C3. From `state = 1`, `isFolding = false`, `animProgress = 1` and any current
shape `S` made of triangles, the first 33 calls of `handleAnimation` stay in
state 1 (progress still positive, shape and creases untouched); the 34th call
ends with `state = 0`, `animProgress = 0`, `hasCreases = true`, `creaseLines`
the crease pattern of the outgoing shape `S`, and `currentShape` the shape
generated during that call. -/
theorem unfolding_reaches_flat_at_tick_34 (env : P5) (ds : ℕ → Draws) (w : World)
    (hs : w.state = 1) (hf : w.isFolding = false) (h1 : w.animProgress = 1)
    (htri : w.currentShape.Triangular) :
    (∀ k : ℕ, k ≤ 33 → ∃ w1, animate env ds k w = some w1 ∧ w1.state = 1 ∧
        w1.animProgress = 1 - (k : ℚ) * (3 / 100) ∧ 0 < w1.animProgress ∧
        w1.currentShape = w.currentShape ∧ w1.hasCreases = w.hasCreases ∧
        w1.creaseLines = w.creaseLines) ∧
    ∃ w2 wc, animate env ds 34 w = some w2 ∧ w2.state = 0 ∧ w2.animProgress = 0 ∧
      w2.hasCreases = true ∧
      generateCreasePattern w.currentShape w = some wc ∧ w2.creaseLines = wc.creaseLines ∧
      w2.creaseLines = deriveCreases w.currentShape (w.paperSize / 2) ∧
      w2.currentShape = generateProceduralShape env (ds 33) := by
  constructor
  · intro k hk
    refine ⟨_, animate_unfolding env ds w hf h1 k hk, hs, rfl, ?_, rfl, rfl, rfl⟩
    have hq : (k : ℚ) ≤ 33 := by exact_mod_cast hk
    show 0 < 1 - (k : ℚ) * step
    simp only [step]
    linarith
  · have hlast := handleAnimation_unfolding_done env (ds 33)
      { w with animProgress := 1 - ((33 : ℕ) : ℚ) * step } hf (by norm_num [step]) htri
    have h34 : animate env ds 34 w
        = some { w with animProgress := 0
                        creaseLines := deriveCreases w.currentShape (w.paperSize / 2)
                        hasCreases := true
                        currentShape := generateProceduralShape env (ds 33)
                        state := 0 } := by
      rw [animate, animate_unfolding env ds w hf h1 33 le_rfl, Option.some_bind]
      exact hlast
    exact ⟨_, _, h34, rfl, rfl, rfl, generateCreasePattern_eq _ w htri, rfl, rfl, rfl⟩

theorem unfolding_reaches_flat_at_tick_34_witness :
    (mousePressed { worldFolding with state := 2, animProgress := 1 }).state = 1 ∧
    ∃ w2, animate sampleP5 (fun _ => drawsB) 34
        (mousePressed { worldFolding with state := 2, animProgress := 1 }) = some w2 ∧
      w2.state = 0 ∧ w2.hasCreases = true ∧
      w2.currentShape = generateProceduralShape sampleP5 drawsB :=
  ⟨rfl,
    (unfolding_reaches_flat_at_tick_34 sampleP5 (fun _ => drawsB)
      (mousePressed { worldFolding with state := 2, animProgress := 1 }) rfl rfl rfl
      (generateProceduralShape_triangular sampleP5 drawsA)).2.elim
      (fun w2 hw => hw.elim (fun _ hh => ⟨w2, hh.1, hh.2.1, hh.2.2.2.1, hh.2.2.2.2.2.2.2⟩))⟩

/-- C10 (the code at the failing input). After one fold and unfold of the
4-sided shape of `world0`, the flat paper shows that shape's 20 creases; a
`windowResized` to the same 800 x 600 window keeps `paperSize` but replaces
`creaseLines` by the 24 creases of the next, not yet displayed, 5-sided shape. -/
theorem resize_replaces_crease_memory :
    ∃ w0 w1 w2,
      run sampleP5 world0 untilLastTick = some w0 ∧ w0.state = 1 ∧ w0.isFolding = false ∧
      w0.currentShape = world0.currentShape ∧
      run sampleP5 world0 foldUnfoldOnce = some w1 ∧ w1.state = 0 ∧ w1.hasCreases = true ∧
      w1.creaseLines = deriveCreases world0.currentShape (w1.paperSize / 2) ∧
      w1.creaseLines.length = 20 ∧
      windowResized 800 600 w1 = some w2 ∧ w2.state = 0 ∧ w2.hasCreases = true ∧
      w2.paperSize = w1.paperSize ∧
      w2.creaseLines = deriveCreases w1.currentShape (w2.paperSize / 2) ∧
      w2.creaseLines.length = 24 ∧
      w2.creaseLines ≠ deriveCreases world0.currentShape (w2.paperSize / 2) := by
  have triA : world0.currentShape.Triangular := generateProceduralShape_triangular sampleP5 drawsA
  have triB := generateProceduralShape_triangular sampleP5 drawsB
  have lenA : ∀ s : ℚ, (deriveCreases world0.currentShape s).length = 20 := fun s => by
    rw [deriveCreases_length _ _ triA]
    show 4 + 2 * (generateProceduralShape sampleP5 drawsA).parts.length = 20
    rw [generateProceduralShape_length, sidesOf_drawsA]
    rfl
  have lenB : ∀ s : ℚ, (deriveCreases (generateProceduralShape sampleP5 drawsB) s).length = 24 :=
    fun s => by
      rw [deriveCreases_length _ _ triB, generateProceduralShape_length, sidesOf_drawsB]
      rfl
  have hA : run sampleP5 world0 [Event.begin, Event.click, Event.click] = some worldFolding := rfl
  have hB := run_ticks_folding_34 sampleP5 drawsB worldFolding rfl rfl rfl
  have hC : run sampleP5 { worldFolding with animProgress := 1, state := 2 } [Event.click]
      = some (mousePressed { worldFolding with animProgress := 1, state := 2 }) := rfl
  have hD := run_ticks_unfolding sampleP5 drawsB
    (mousePressed { worldFolding with animProgress := 1, state := 2 }) rfl rfl rfl 33 le_rfl
  have h0 : run sampleP5 world0 untilLastTick
      = some { mousePressed { worldFolding with animProgress := 1, state := 2 } with
               animProgress := 1 - ((33 : ℕ) : ℚ) * step } := by
    rw [untilLastTick, run_append, run_append, run_append, hA, Option.some_bind, hB,
      Option.some_bind, hC, Option.some_bind]
    exact hD
  have hE := handleAnimation_unfolding_done sampleP5 drawsB
    { mousePressed { worldFolding with animProgress := 1, state := 2 } with
      animProgress := 1 - ((33 : ℕ) : ℚ) * step } rfl (by norm_num [step]) triA
  have h1a : run sampleP5 world0 foldUnfoldOnce
      = (handleAnimation sampleP5 drawsB
          { mousePressed { worldFolding with animProgress := 1, state := 2 } with
            animProgress := 1 - ((33 : ℕ) : ℚ) * step }).bind some := by
    rw [foldUnfoldOnce, run_append, h0, Option.some_bind, run_tick _ _ _ rfl]
  have h1 := h1a.trans (congrArg (fun o => Option.bind o some) hE)
  refine ⟨_, _, _, h0, rfl, rfl, rfl, h1, rfl, rfl, rfl, lenA _,
    windowResized_eq 800 600 _ (by exact triB), rfl, rfl, rfl, rfl, lenB _, ?_⟩
  intro hne
  have := congrArg List.length hne
  rw [lenA] at this
  have h24 := lenB (min ((800 : ℕ) : ℚ) ((600 : ℕ) : ℚ) * (7 / 10) / 2)
  exact absurd (h24.symm.trans this) (by decide)

end Origami
